import Mathlib

/-
  Shallow embedding of the feemarket keeper core
  (src/x/feemarket/keeper/keeper.go and the MessagePool from x/feemarket/types).

  Byte slices are modelled as lists of naturals; the host KV store is a record
  with one optional byte field per storage key (the three keys are distinct
  byte-string literals in the source, so a field per key is faithful).
  Decimal values (cosmossdk.io/math.LegacyDec) are modelled abstractly as
  integers: no claim computes with them.  Go's mutation of the store and of
  the pool is modelled by explicit state passing.
-/

namespace Feemarket

abbrev Bytes := List Nat

/-- Error kinds surfaced by the keeper core: decode failure, the two
strconv.ParseInt failure modes, the missing-resolver error
(types.ErrResolverNotSet), the construction-time authority panic, and a
catch-all for errors produced by injected collaborators. -/
inductive Err where
  | malformedRecord
  | invalidFormat
  | outOfRange
  | resolverNotSet
  | invalidAuthority
  | other (msg : String)
deriving DecidableEq, Repr

/-- types.Params: seven LegacyDec fields (modelled as Int). -/
structure Params where
  Alpha : Int
  Beta : Int
  Gamma : Int
  Delta : Int
  MinBaseGasPrice : Int
  MinLearningRate : Int
  MaxLearningRate : Int
deriving DecidableEq, Repr

/-- types.State: two LegacyDec fields (modelled as Int) and the repeated
uint64 Window (modelled as List Nat). -/
structure State where
  BaseGasPrice : Int
  LearningRate : Int
  Window : List Nat
deriving DecidableEq, Repr

/-- The Go zero value `types.State{}` that GetState decodes into. -/
def State.zeroGo : State := { BaseGasPrice := 0, LearningRate := 0, Window := [] }

/-- The Go zero value `types.Params{}` that GetParams decodes into. -/
def Params.zeroGo : Params :=
  { Alpha := 0, Beta := 0, Gamma := 0, Delta := 0,
    MinBaseGasPrice := 0, MinLearningRate := 0, MaxLearningRate := 0 }

/-- Sign-magnitude encoding of an integer field value into one token. -/
def encInt (i : Int) : Nat :=
  if 0 ≤ i then 2 * i.toNat else 2 * (-i).toNat - 1

/-- Inverse of `encInt`. -/
def decInt (n : Nat) : Int :=
  if n % 2 = 0 then ((n / 2 : Nat) : Int) else -(((n + 1) / 2 : Nat) : Int)

/-- Modelled from the spec: `State.Marshal`, the generated protobuf encoder,
is not under src/.  The spec requires a deterministic binary encoding of the
record; here the two decimal fields are one token each followed by the
length-prefixed Window entries. -/
def State.marshal (v : State) : Except Err Bytes :=
  .ok (encInt v.BaseGasPrice :: encInt v.LearningRate :: v.Window.length :: v.Window)

/-- Modelled from the spec: `State.Unmarshal`, the generated protobuf decoder,
is not under src/.  Proto-style decode into an existing (possibly dirty)
instance: an empty buffer is a no-op, a well-formed buffer overwrites the
scalar fields and APPENDS the decoded Window entries to the instance's
current Window (repeated-field merge semantics — the reason the fast path
must truncate the Window first), and anything else is a malformed record. -/
def State.unmarshalInto (cur : State) (bz : Bytes) : Except Err State :=
  match bz with
  | [] => .ok cur
  | b :: l :: len :: rest =>
      if rest.length = len then
        .ok { BaseGasPrice := decInt b, LearningRate := decInt l,
              Window := cur.Window ++ rest }
      else .error .malformedRecord
  | _ => .error .malformedRecord

/-- Modelled from the spec: `Params.Marshal` (generated code not under src/).
Deterministic: one token per field, in declaration order. -/
def Params.marshal (v : Params) : Except Err Bytes :=
  .ok [encInt v.Alpha, encInt v.Beta, encInt v.Gamma, encInt v.Delta,
       encInt v.MinBaseGasPrice, encInt v.MinLearningRate, encInt v.MaxLearningRate]

/-- Modelled from the spec: `Params.Unmarshal` (generated code not under
src/).  Empty buffer is a no-op on the existing instance; exactly seven
tokens decode the seven fields; anything else is malformed. -/
def Params.unmarshalInto (cur : Params) (bz : Bytes) : Except Err Params :=
  match bz with
  | [] => .ok cur
  | [a, b, g, d, m, mn, mx] =>
      .ok { Alpha := decInt a, Beta := decInt b, Gamma := decInt g, Delta := decInt d,
            MinBaseGasPrice := decInt m, MinLearningRate := decInt mn,
            MaxLearningRate := decInt mx }
  | _ => .error .malformedRecord

/-- One decimal digit character code to its value. -/
def digitVal (c : Nat) : Option Nat :=
  if 48 ≤ c ∧ c ≤ 57 then some (c - 48) else none

/-- Accumulate base-10 digits; fails on any non-digit character. -/
def parseDigitsAux : List Nat → Nat → Option Nat
  | [], acc => some acc
  | c :: cs, acc =>
      match digitVal c with
      | some d => parseDigitsAux cs (acc * 10 + d)
      | none => none

/-- strconv.ParseInt(string(bz), 10, 64): optional single leading sign,
then one or more decimal digits, with the int64 range check. -/
def parseIntBytes (bz : Bytes) : Except Err Int :=
  match bz with
  | [] => .error .invalidFormat
  | c :: rest =>
      let signed : Bool × Bytes :=
        if c = 45 then (true, rest) else if c = 43 then (false, rest) else (false, bz)
      match signed.2 with
      | [] => .error .invalidFormat
      | _ =>
          match parseDigitsAux signed.2 0 with
          | none => .error .invalidFormat
          | some n =>
              if signed.1 then
                if n ≤ 2 ^ 63 then .ok (-(n : Int)) else .error .outOfRange
              else
                if n < 2 ^ 63 then .ok (n : Int) else .error .outOfRange

/-- Decimal digit character codes of a natural number. -/
def natDigits (n : Nat) : Bytes :=
  (Nat.toDigits 10 n).map Char.toNat

/-- strconv.FormatInt(height, 10) as byte values. -/
def formatInt (i : Int) : Bytes :=
  if i < 0 then 45 :: natDigits i.natAbs else natDigits i.toNat

/-- The host key-value store restricted to the module's three storage keys
(types.KeyEnabledHeight, types.KeyParams, types.KeyState), which are
distinct byte strings; `none` models an absent key (Go `store.Get` returning
nil). -/
structure KVStore where
  enabledHeight : Option Bytes
  paramsBz : Option Bytes
  stateBz : Option Bytes
deriving DecidableEq, Repr

/-- A store with nothing written under any of the three keys. -/
def KVStore.empty : KVStore := { enabledHeight := none, paramsBz := none, stateBz := none }

/-- MessagePool[T] over sync.Pool: a free list plus the factory used when
the free list is empty.  sync.Pool guarantees no order between releases and
gets; a list with head access is one admissible sequential behaviour, and
every theorem below quantifies over the whole free-list contents. -/
structure MessagePool (T : Type) where
  New : Unit → T
  freeList : List T

/-- MessagePool.Get: a recycled instance if one is free, else a fresh
factory-built one. -/
def MessagePool.Get {T : Type} (p : MessagePool T) : T × MessagePool T :=
  match p.freeList with
  | [] => (p.New (), p)
  | x :: xs => (x, { p with freeList := xs })

/-- MessagePool.put (called by PooledMessage.Release): return an instance
to the free list. -/
def MessagePool.put {T : Type} (p : MessagePool T) (x : T) : MessagePool T :=
  { p with freeList := x :: p.freeList }

/-- PooledMessage[T]: `Value` is a Go pointer (none = nil) and `hasPool`
records whether the handle still carries its pool reference.  The Go zero
value `PooledMessage[T]{}` returned on the error paths has both nil. -/
structure PooledMessage (T : Type) where
  Value : Option T
  hasPool : Bool
deriving DecidableEq, Repr

/-- The zero handle `types.PooledMessage[T]{}`. -/
def PooledMessage.zero {T : Type} : PooledMessage T := { Value := none, hasPool := false }

/-- GetEnabledHeight: -1 and no error when the key is absent, otherwise
strconv.ParseInt of the stored bytes. -/
def GetEnabledHeight (st : KVStore) : Except Err Int :=
  match st.enabledHeight with
  | none => .ok (-1)
  | some bz => parseIntBytes bz

/-- SetEnabledHeight: unconditionally store FormatInt(height, 10). -/
def SetEnabledHeight (st : KVStore) (height : Int) : KVStore :=
  { st with enabledHeight := some (formatInt height) }

/-- GetState: decode the stored bytes (nil when absent) into a fresh
zero-valued types.State. -/
def GetState (st : KVStore) : Except Err State :=
  State.unmarshalInto State.zeroGo (st.stateBz.getD [])

/-- GetParams: decode the stored bytes (nil when absent) into a fresh
zero-valued types.Params. -/
def GetParams (st : KVStore) : Except Err Params :=
  Params.unmarshalInto Params.zeroGo (st.paramsBz.getD [])

/-- SetState with the record's Marshal as an explicit argument (the
generated encoder is not under src/): on encode failure return the error
and leave the store untouched, otherwise write the encoded bytes under the
State key. -/
def SetStateWith (marshal : State → Except Err Bytes) (st : KVStore) (v : State) :
    Option Err × KVStore :=
  match marshal v with
  | .error e => (some e, st)
  | .ok bz => (none, { st with stateBz := some bz })

/-- SetState with the spec-modelled encoder. -/
def SetState : KVStore → State → Option Err × KVStore :=
  SetStateWith State.marshal

/-- SetParams with the record's Marshal as an explicit argument. -/
def SetParamsWith (marshal : Params → Except Err Bytes) (st : KVStore) (v : Params) :
    Option Err × KVStore :=
  match marshal v with
  | .error e => (some e, st)
  | .ok bz => (none, { st with paramsBz := some bz })

/-- SetParams with the spec-modelled encoder. -/
def SetParams : KVStore → Params → Option Err × KVStore :=
  SetParamsWith Params.marshal

/-- GetStateFast: take an instance from the state pool, truncate its Window
to empty, decode the stored bytes into it; on decode failure release the
instance and return the error with the zero handle, on success return the
live handle. -/
def GetStateFast (st : KVStore) (pool : MessagePool State) :
    (PooledMessage State × Option Err) × MessagePool State :=
  let bz := st.stateBz.getD []
  let got := pool.Get
  let cleared : State := { got.1 with Window := [] }
  match State.unmarshalInto cleared bz with
  | .error e => ((PooledMessage.zero, some e), got.2.put cleared)
  | .ok v => (({ Value := some v, hasPool := true }, none), got.2)

/-- GetParamsFast: take an instance from the params pool and decode the
stored bytes into it; on decode failure release the instance and return the
error with the zero handle. -/
def GetParamsFast (st : KVStore) (pool : MessagePool Params) :
    (PooledMessage Params × Option Err) × MessagePool Params :=
  let bz := st.paramsBz.getD []
  let got := pool.Get
  match Params.unmarshalInto got.1 bz with
  | .error e => ((PooledMessage.zero, some e), got.2.put got.1)
  | .ok v => (({ Value := some v, hasPool := true }, none), got.2)

/-- sdk.DecCoin: a denomination and a decimal amount. -/
structure DecCoin where
  Denom : String
  Amount : Int
deriving DecidableEq, Repr

/-- The zero value sdk.DecCoin{} returned when no resolver is configured. -/
def DecCoin.zero : DecCoin := { Denom := "", Amount := 0 }

/-- types.DenomResolver.ConvertToDenom as a function value (the context
argument carries no data the core inspects). -/
def DenomResolver : Type := DecCoin → String → DecCoin × Option Err

/-- The keeper fields the claims observe: the authority string and the
optional denom resolver (nil when not configured). -/
structure Keeper where
  authority : String
  resolver : Option DenomResolver

/-- NewKeeper with sdk.AccAddressFromBech32 as an explicit argument (the
address codec is not under src/): the constructor panics — modelled as an
error, no Keeper produced — when the authority fails validation, and
otherwise returns a keeper holding exactly the given authority and
resolver. -/
def NewKeeper (accAddressFromBech32 : String → Except Err Unit)
    (resolver : Option DenomResolver) (authority : String) : Except Err Keeper :=
  match accAddressFromBech32 authority with
  | .error _ => .error .invalidAuthority
  | .ok _ => .ok { authority := authority, resolver := resolver }

/-- GetAuthority. -/
def Keeper.GetAuthority (k : Keeper) : String := k.authority

/-- ResolveToDenom: the ErrResolverNotSet error with a zero coin when no
resolver is configured, otherwise exactly what the resolver returns. -/
def Keeper.ResolveToDenom (k : Keeper) (coin : DecCoin) (denom : String) :
    DecCoin × Option Err :=
  match k.resolver with
  | none => (DecCoin.zero, some .resolverNotSet)
  | some r => r coin denom

/-- SetDenomResolver. -/
def Keeper.SetDenomResolver (k : Keeper) (r : DenomResolver) : Keeper :=
  { k with resolver := some r }

end Feemarket

namespace Feemarket

/-- Decoding inverts encoding on single field tokens. -/
theorem decInt_encInt (i : Int) : decInt (encInt i) = i := by
  unfold decInt encInt
  by_cases h : 0 ≤ i
  · rw [if_pos h]
    have h2 : 2 * i.toNat % 2 = 0 := by omega
    rw [if_pos h2]
    omega
  · rw [if_neg h]
    have h1 : 1 ≤ (-i).toNat := by omega
    have h2 : ¬((2 * (-i).toNat - 1) % 2 = 0) := by omega
    rw [if_neg h2]
    omega

/-- A successful decode into any (possibly dirty) instance succeeds into the
zero instance too, and the dirty result's Window is the dirty instance's
Window followed by exactly the entries a fresh decode yields. -/
theorem unmarshalInto_ok_window (cur : State) (bz : Bytes) (r : State)
    (h : State.unmarshalInto cur bz = .ok r) :
    ∃ g, State.unmarshalInto State.zeroGo bz = .ok g ∧
      r.Window = cur.Window ++ g.Window := by
  rcases bz with _ | ⟨b, _ | ⟨l, _ | ⟨len, rest⟩⟩⟩
  · refine ⟨State.zeroGo, rfl, ?_⟩
    simp only [State.unmarshalInto, Except.ok.injEq] at h
    simp [← h, State.zeroGo]
  · simp [State.unmarshalInto] at h
  · simp [State.unmarshalInto] at h
  · by_cases hl : rest.length = len
    · refine ⟨{ BaseGasPrice := decInt b, LearningRate := decInt l, Window := rest }, ?_, ?_⟩
      · simp [State.unmarshalInto, hl, State.zeroGo]
      · simp only [State.unmarshalInto, hl, if_true, if_pos, Except.ok.injEq] at h
        simp [← h]
    · simp [State.unmarshalInto, hl] at h

/-- Unfolding of the fast state path as a top-level match. -/
theorem GetStateFast_eq (st : KVStore) (pool : MessagePool State) :
    GetStateFast st pool =
      match State.unmarshalInto { pool.Get.1 with Window := [] } (st.stateBz.getD []) with
      | .error e => ((PooledMessage.zero, some e),
          pool.Get.2.put { pool.Get.1 with Window := [] })
      | .ok v => (({ Value := some v, hasPool := true }, none), pool.Get.2) := rfl

/-- Unfolding of the fast params path as a top-level match. -/
theorem GetParamsFast_eq (st : KVStore) (pool : MessagePool Params) :
    GetParamsFast st pool =
      match Params.unmarshalInto pool.Get.1 (st.paramsBz.getD []) with
      | .error e => ((PooledMessage.zero, some e), pool.Get.2.put pool.Get.1)
      | .ok v => (({ Value := some v, hasPool := true }, none), pool.Get.2) := rfl

/-- C1: whatever instance the state pool supplies — in particular one
previously released with a non-empty Window — a successful GetStateFast
returns a value whose Window holds exactly the entries a fresh decode of
the stored bytes yields (what GetState returns), with no leftover entry. -/
theorem C1_getStateFast_window_no_leftovers (st : KVStore) (pool : MessagePool State)
    (v : State) (h : ((GetStateFast st pool).1.1).Value = some v) :
    ∃ g, GetState st = .ok g ∧ v.Window = g.Window := by
  rw [GetStateFast_eq] at h
  cases hm : State.unmarshalInto { pool.Get.1 with Window := [] } (st.stateBz.getD []) with
  | error e =>
      rw [hm] at h
      simp [PooledMessage.zero] at h
  | ok w =>
      rw [hm] at h
      simp only [Option.some.injEq] at h
      obtain ⟨g, hg, hw⟩ := unmarshalInto_ok_window _ _ _ hm
      refine ⟨g, hg, ?_⟩
      rw [← h]
      simpa using hw

theorem C1_witness :
    ∃ g, GetState (SetState KVStore.empty
        { BaseGasPrice := 3, LearningRate := -2, Window := [5, 6] }).2 = .ok g ∧
      State.Window { BaseGasPrice := 3, LearningRate := -2, Window := [5, 6] } = g.Window :=
  C1_getStateFast_window_no_leftovers
    (SetState KVStore.empty { BaseGasPrice := 3, LearningRate := -2, Window := [5, 6] }).2
    { New := fun _ => State.zeroGo,
      freeList := [{ BaseGasPrice := 9, LearningRate := 9, Window := [77, 88] }] }
    { BaseGasPrice := 3, LearningRate := -2, Window := [5, 6] } rfl

/-- C2: whenever the fast-path decode fails (an error is returned),
GetStateFast and GetParamsFast return the zero pooled handle, and the
returned pool's free list shows the obtained instance was put back: its
length is the original length when an instance was recycled, or one when
the pool was empty and the factory supplied the instance — no instance is
left checked out. -/
theorem C2_fast_decode_failure_releases (st : KVStore)
    (poolS : MessagePool State) (poolP : MessagePool Params) :
    (∀ e, ((GetStateFast st poolS).1).2 = some e →
        ((GetStateFast st poolS).1).1 = PooledMessage.zero ∧
        ((GetStateFast st poolS).2).freeList.length = max poolS.freeList.length 1) ∧
    (∀ e, ((GetParamsFast st poolP).1).2 = some e →
        ((GetParamsFast st poolP).1).1 = PooledMessage.zero ∧
        ((GetParamsFast st poolP).2).freeList.length = max poolP.freeList.length 1) := by
  constructor
  · intro e he
    rw [GetStateFast_eq] at he ⊢
    cases hm : State.unmarshalInto { poolS.Get.1 with Window := [] } (st.stateBz.getD []) with
    | error e2 =>
        refine ⟨rfl, ?_⟩
        rcases hfl : poolS.freeList with _ | ⟨x, xs⟩ <;>
          simp [MessagePool.Get, MessagePool.put, hfl]
    | ok w => rw [hm] at he; simp at he
  · intro e he
    rw [GetParamsFast_eq] at he ⊢
    cases hm : Params.unmarshalInto poolP.Get.1 (st.paramsBz.getD []) with
    | error e2 =>
        refine ⟨rfl, ?_⟩
        rcases hfl : poolP.freeList with _ | ⟨x, xs⟩ <;>
          simp [MessagePool.Get, MessagePool.put, hfl]
    | ok w => rw [hm] at he; simp at he

theorem C2_witness :
    (((GetStateFast { KVStore.empty with stateBz := some [1, 2] }
        { New := fun _ => State.zeroGo, freeList := [] }).1).1 = PooledMessage.zero ∧
      ((GetStateFast { KVStore.empty with stateBz := some [1, 2] }
        { New := fun _ => State.zeroGo, freeList := [] }).2).freeList.length =
        max (List.length ([] : List State)) 1) ∧
    (((GetParamsFast { KVStore.empty with paramsBz := some [1, 2] }
        { New := fun _ => Params.zeroGo, freeList := [Params.zeroGo] }).1).1 = PooledMessage.zero ∧
      ((GetParamsFast { KVStore.empty with paramsBz := some [1, 2] }
        { New := fun _ => Params.zeroGo, freeList := [Params.zeroGo] }).2).freeList.length =
        max (List.length [Params.zeroGo]) 1) :=
  ⟨(C2_fast_decode_failure_releases { KVStore.empty with stateBz := some [1, 2] }
      { New := fun _ => State.zeroGo, freeList := [] }
      { New := fun _ => Params.zeroGo, freeList := [Params.zeroGo] }).1 .malformedRecord rfl,
   (C2_fast_decode_failure_releases { KVStore.empty with paramsBz := some [1, 2] }
      { New := fun _ => State.zeroGo, freeList := [] }
      { New := fun _ => Params.zeroGo, freeList := [Params.zeroGo] }).2 .malformedRecord rfl⟩

/-- C3: writing any State (resp. Params) value succeeds and reading it back
returns the same value field-for-field — encode then decode is the identity
on records. -/
theorem C3_set_get_roundtrip (st : KVStore) (v : State) (p : Params) :
    (SetState st v).1 = none ∧ GetState (SetState st v).2 = .ok v ∧
    (SetParams st p).1 = none ∧ GetParams (SetParams st p).2 = .ok p := by
  obtain ⟨b, l, w⟩ := v
  obtain ⟨a1, a2, a3, a4, a5, a6, a7⟩ := p
  refine ⟨rfl, ?_, rfl, ?_⟩
  · simp [GetState, SetState, SetStateWith, State.marshal, State.unmarshalInto,
      State.zeroGo, decInt_encInt]
  · simp [GetParams, SetParams, SetParamsWith, Params.marshal, Params.unmarshalInto,
      Params.zeroGo, decInt_encInt]

/-- C4: when the record's encoder fails, SetState and SetParams return the
encode error and leave the store byte-for-byte unchanged — no partial
write. -/
theorem C4_encode_failure_no_write (mS : State → Except Err Bytes)
    (mP : Params → Except Err Bytes) (st : KVStore) (v : State) (p : Params)
    (e f : Err) (hS : mS v = .error e) (hP : mP p = .error f) :
    SetStateWith mS st v = (some e, st) ∧ SetParamsWith mP st p = (some f, st) := by
  constructor
  · simp [SetStateWith, hS]
  · simp [SetParamsWith, hP]

theorem C4_witness :
    SetStateWith (fun _ => .error (.other "boom")) KVStore.empty State.zeroGo =
      (some (.other "boom"), KVStore.empty) ∧
    SetParamsWith (fun _ => .error (.other "boom")) KVStore.empty Params.zeroGo =
      (some (.other "boom"), KVStore.empty) :=
  C4_encode_failure_no_write (fun _ => .error (.other "boom"))
    (fun _ => .error (.other "boom")) KVStore.empty State.zeroGo Params.zeroGo
    (.other "boom") (.other "boom") rfl rfl

/-- C5: GetEnabledHeight returns -1 and no error exactly when the key is
absent and otherwise the result of parsing the stored bytes as a decimal
integer (an error when they do not parse, as on the bytes of "abc"); and
SetEnabledHeight 1000 followed by GetEnabledHeight returns 1000. -/
theorem C5_enabled_height_semantics (st : KVStore) :
    GetEnabledHeight st =
      (match st.enabledHeight with
       | none => .ok (-1)
       | some bz => parseIntBytes bz) ∧
    GetEnabledHeight (SetEnabledHeight st 1000) = .ok 1000 ∧
    GetEnabledHeight KVStore.empty = .ok (-1) ∧
    parseIntBytes [97, 98, 99] = .error .invalidFormat :=
  ⟨rfl, rfl, rfl, rfl⟩

/-- C6: on a store with no bytes under the State (resp. Params) key, the
plain GetState (resp. GetParams) neither special-cases absence nor
substitutes a seeded default: it returns exactly what decoding the absent
(nil, i.e. empty) buffer into a fresh zero-valued record reports — here a
success carrying the zero-valued record. -/
theorem C6_absent_key_plain_get (st : KVStore)
    (hs : st.stateBz = none) (hp : st.paramsBz = none) :
    GetState st = State.unmarshalInto State.zeroGo [] ∧
    GetParams st = Params.unmarshalInto Params.zeroGo [] ∧
    GetState st = .ok State.zeroGo ∧ GetParams st = .ok Params.zeroGo := by
  refine ⟨?_, ?_, ?_, ?_⟩ <;>
    simp [GetState, GetParams, hs, hp, State.unmarshalInto, Params.unmarshalInto]

theorem C6_witness :
    GetState KVStore.empty = .ok State.zeroGo ∧
    GetParams KVStore.empty = .ok Params.zeroGo :=
  ⟨(C6_absent_key_plain_get KVStore.empty rfl rfl).2.2.1,
   (C6_absent_key_plain_get KVStore.empty rfl rfl).2.2.2⟩

/-- C7: ResolveToDenom on a keeper with no resolver configured returns the
zero coin and the resolver-not-configured error; with a resolver
configured it returns exactly the resolver's own (coin, error) pair for
the same arguments. -/
theorem C7_resolver_boundary :
    (∀ (auth : String) (coin : DecCoin) (denom : String),
        Keeper.ResolveToDenom { authority := auth, resolver := none } coin denom =
          (DecCoin.zero, some .resolverNotSet)) ∧
    (∀ (auth : String) (r : DenomResolver) (coin : DecCoin) (denom : String),
        Keeper.ResolveToDenom { authority := auth, resolver := some r } coin denom =
          r coin denom) :=
  ⟨fun _ _ _ => rfl, fun _ _ _ _ => rfl⟩

/-- C8: constructing the keeper with an authority the address codec
rejects fails (the Go panic — no keeper is produced), while a well-formed
authority yields a keeper on which GetAuthority returns exactly the
authority string passed in. -/
theorem C8_construction_validation (validate : String → Except Err Unit)
    (res : Option DenomResolver) (auth : String) :
    (∀ e, validate auth = .error e →
        NewKeeper validate res auth = .error .invalidAuthority) ∧
    (validate auth = .ok () →
        ∃ k, NewKeeper validate res auth = .ok k ∧ k.GetAuthority = auth) := by
  constructor
  · intro e h
    simp [NewKeeper, h]
  · intro h
    refine ⟨{ authority := auth, resolver := res }, ?_, rfl⟩
    simp [NewKeeper, h]

theorem C8_witness :
    (NewKeeper (fun s => if s.length = 0 then .error .invalidAuthority else .ok ())
        none "" = .error .invalidAuthority) ∧
    ∃ k, NewKeeper (fun s => if s.length = 0 then .error .invalidAuthority else .ok ())
        none "gov1account" = .ok k ∧ k.GetAuthority = "gov1account" :=
  ⟨(C8_construction_validation
      (fun s => if s.length = 0 then .error .invalidAuthority else .ok ()) none "").1
      .invalidAuthority (by rfl),
   (C8_construction_validation
      (fun s => if s.length = 0 then .error .invalidAuthority else .ok ()) none
      "gov1account").2 (by rfl)⟩

/-- C10: SetEnabledHeight persists any integer height unconditionally —
including -1 — and after SetEnabledHeight (-1) the read path returns -1
with no error, exactly the answer GetEnabledHeight gives on the same store
with the key absent, so a persisted -1 cannot be told apart from the
not-yet-enabled absent state through the read path. -/
theorem C10_minus_one_indistinguishable_from_absent (st : KVStore) (height : Int) :
    (SetEnabledHeight st height).enabledHeight = some (formatInt height) ∧
    GetEnabledHeight (SetEnabledHeight st (-1)) = .ok (-1) ∧
    GetEnabledHeight (SetEnabledHeight st (-1)) =
      GetEnabledHeight { st with enabledHeight := none } :=
  ⟨rfl, rfl, rfl⟩

end Feemarket
